import Mathlib

/-!
Shallow embedding of the `global-hotkey` repository (X11 backend and
`hotkey.rs`) and proofs about it.

Modelling conventions:
* Machine integers (`u32`, `u64`) are `Nat` with explicit `% 2 ^ 64`
  where wrap-around matters (the SipHash computation); all bitmask
  arithmetic stays below `2 ^ 32` on its own.
* The `BTreeMap<u32, Vec<(u32, u32, bool)>>` registration table is
  modelled as a total function `Nat → List (Nat × Nat × Bool)` with
  default `[]`: every read site in the source treats an absent key
  exactly like an empty vector (`get` falls through, `entry().or_default()`
  materialises an empty vector), so the absent/empty distinction is not
  observable.
* Calls into the X server (`XGrabKey` / `XUngrabKey`) are recorded in an
  explicit trace (`XCall`); the server's responses are supplied by
  oracles: `k2k` for `XKeysymToKeycode` and `gf` for whether a grab
  request answers `BadAccess`.
* The crossbeam reply channel of capacity one is modelled by the list of
  messages the worker sends, in order; the caller's single `recv` sees
  the first message (the worker blocks until it is taken, and later
  sends are dropped once the caller's receiver is gone), and a
  disconnected channel is `none`.
-/

/-- Modifier flag set of `keyboard_types::Modifiers` (a bitflags struct),
modelled as one `Bool` per flag. -/
structure Modifiers where
  alt : Bool := false
  altGraph : Bool := false
  capsLock : Bool := false
  control : Bool := false
  fnKey : Bool := false
  fnLock : Bool := false
  meta : Bool := false
  numLock : Bool := false
  scrollLock : Bool := false
  shift : Bool := false
  symbol : Bool := false
  symbolLock : Bool := false
  hyper : Bool := false
  super : Bool := false
deriving DecidableEq

/-- Empty modifier set (`Modifiers::empty()`). -/
def Modifiers.empty : Modifiers := {}

/-- The `keyboard_types::Code` variants reachable in this crate: every
variant named in `keycode_to_x11_scancode` plus the variants the string
parser accepts that fall into that function's `_ => return None` arm
(F13–F24, NumpadEnter, NumpadEqual). -/
inductive Code where
  | KeyA | KeyB | KeyC | KeyD | KeyE | KeyF | KeyG | KeyH | KeyI | KeyJ
  | KeyK | KeyL | KeyM | KeyN | KeyO | KeyP | KeyQ | KeyR | KeyS | KeyT
  | KeyU | KeyV | KeyW | KeyX | KeyY | KeyZ
  | Backslash | BracketLeft | BracketRight | Backquote | Comma
  | Digit0 | Digit1 | Digit2 | Digit3 | Digit4
  | Digit5 | Digit6 | Digit7 | Digit8 | Digit9
  | Equal | Minus | Period | Quote | Semicolon | Slash
  | Backspace | CapsLock | Enter | Space | Tab | Delete | End | Home
  | Insert | PageDown | PageUp
  | ArrowDown | ArrowLeft | ArrowRight | ArrowUp
  | Numpad0 | Numpad1 | Numpad2 | Numpad3 | Numpad4
  | Numpad5 | Numpad6 | Numpad7 | Numpad8 | Numpad9
  | NumpadAdd | NumpadDecimal | NumpadDivide | NumpadMultiply | NumpadSubtract
  | Escape | PrintScreen | ScrollLock | NumLock
  | F1 | F2 | F3 | F4 | F5 | F6 | F7 | F8 | F9 | F10 | F11 | F12
  | AudioVolumeDown | AudioVolumeMute | AudioVolumeUp
  | MediaPlay | MediaPause | MediaStop | MediaTrackNext | MediaTrackPrevious
  | Pause
  | F13 | F14 | F15 | F16 | F17 | F18 | F19 | F20 | F21 | F22 | F23 | F24
  | NumpadEnter | NumpadEqual
deriving DecidableEq

/-- Display form of a `Code` (the derived `Display` prints the variant
name); used by `HotKey::generate_hash` via `self.key.to_string()`. -/
def codeToString : Code → String
  | .KeyA => "KeyA" | .KeyB => "KeyB" | .KeyC => "KeyC" | .KeyD => "KeyD"
  | .KeyE => "KeyE" | .KeyF => "KeyF" | .KeyG => "KeyG" | .KeyH => "KeyH"
  | .KeyI => "KeyI" | .KeyJ => "KeyJ" | .KeyK => "KeyK" | .KeyL => "KeyL"
  | .KeyM => "KeyM" | .KeyN => "KeyN" | .KeyO => "KeyO" | .KeyP => "KeyP"
  | .KeyQ => "KeyQ" | .KeyR => "KeyR" | .KeyS => "KeyS" | .KeyT => "KeyT"
  | .KeyU => "KeyU" | .KeyV => "KeyV" | .KeyW => "KeyW" | .KeyX => "KeyX"
  | .KeyY => "KeyY" | .KeyZ => "KeyZ"
  | .Backslash => "Backslash" | .BracketLeft => "BracketLeft"
  | .BracketRight => "BracketRight" | .Backquote => "Backquote"
  | .Comma => "Comma"
  | .Digit0 => "Digit0" | .Digit1 => "Digit1" | .Digit2 => "Digit2"
  | .Digit3 => "Digit3" | .Digit4 => "Digit4" | .Digit5 => "Digit5"
  | .Digit6 => "Digit6" | .Digit7 => "Digit7" | .Digit8 => "Digit8"
  | .Digit9 => "Digit9"
  | .Equal => "Equal" | .Minus => "Minus" | .Period => "Period"
  | .Quote => "Quote" | .Semicolon => "Semicolon" | .Slash => "Slash"
  | .Backspace => "Backspace" | .CapsLock => "CapsLock" | .Enter => "Enter"
  | .Space => "Space" | .Tab => "Tab" | .Delete => "Delete" | .End => "End"
  | .Home => "Home" | .Insert => "Insert" | .PageDown => "PageDown"
  | .PageUp => "PageUp"
  | .ArrowDown => "ArrowDown" | .ArrowLeft => "ArrowLeft"
  | .ArrowRight => "ArrowRight" | .ArrowUp => "ArrowUp"
  | .Numpad0 => "Numpad0" | .Numpad1 => "Numpad1" | .Numpad2 => "Numpad2"
  | .Numpad3 => "Numpad3" | .Numpad4 => "Numpad4" | .Numpad5 => "Numpad5"
  | .Numpad6 => "Numpad6" | .Numpad7 => "Numpad7" | .Numpad8 => "Numpad8"
  | .Numpad9 => "Numpad9"
  | .NumpadAdd => "NumpadAdd" | .NumpadDecimal => "NumpadDecimal"
  | .NumpadDivide => "NumpadDivide" | .NumpadMultiply => "NumpadMultiply"
  | .NumpadSubtract => "NumpadSubtract"
  | .Escape => "Escape" | .PrintScreen => "PrintScreen"
  | .ScrollLock => "ScrollLock" | .NumLock => "NumLock"
  | .F1 => "F1" | .F2 => "F2" | .F3 => "F3" | .F4 => "F4" | .F5 => "F5"
  | .F6 => "F6" | .F7 => "F7" | .F8 => "F8" | .F9 => "F9" | .F10 => "F10"
  | .F11 => "F11" | .F12 => "F12"
  | .AudioVolumeDown => "AudioVolumeDown" | .AudioVolumeMute => "AudioVolumeMute"
  | .AudioVolumeUp => "AudioVolumeUp"
  | .MediaPlay => "MediaPlay" | .MediaPause => "MediaPause"
  | .MediaStop => "MediaStop" | .MediaTrackNext => "MediaTrackNext"
  | .MediaTrackPrevious => "MediaTrackPrevious"
  | .Pause => "Pause"
  | .F13 => "F13" | .F14 => "F14" | .F15 => "F15" | .F16 => "F16"
  | .F17 => "F17" | .F18 => "F18" | .F19 => "F19" | .F20 => "F20"
  | .F21 => "F21" | .F22 => "F22" | .F23 => "F23" | .F24 => "F24"
  | .NumpadEnter => "NumpadEnter" | .NumpadEqual => "NumpadEqual"

/-! SipHash-1-3 with key (0, 0): the algorithm behind Rust's
`std::collections::hash_map::DefaultHasher`, used by
`HotKey::generate_hash`. 64-bit words are `Nat` reduced mod `2 ^ 64`. -/

/-- Internal state of the SipHash permutation. -/
structure SipState where
  v0 : Nat
  v1 : Nat
  v2 : Nat
  v3 : Nat
deriving DecidableEq

/-- Addition of two 64-bit words with wrap-around. -/
def add64 (a b : Nat) : Nat := (a + b) % 2 ^ 64

/-- Left rotation of a 64-bit word. -/
def rotl64 (a b : Nat) : Nat := ((a <<< b) % 2 ^ 64) ||| (a >>> (64 - b))

/-- One SIPROUND of the SipHash permutation. -/
def sipRound (s : SipState) : SipState :=
  let v0 := add64 s.v0 s.v1
  let v1 := rotl64 s.v1 13
  let v1 := v1 ^^^ v0
  let v0 := rotl64 v0 32
  let v2 := add64 s.v2 s.v3
  let v3 := rotl64 s.v3 16
  let v3 := v3 ^^^ v2
  let v0 := add64 v0 v3
  let v3 := rotl64 v3 21
  let v3 := v3 ^^^ v0
  let v2 := add64 v2 v1
  let v1 := rotl64 v1 17
  let v1 := v1 ^^^ v2
  let v2 := rotl64 v2 32
  ⟨v0, v1, v2, v3⟩

/-- Absorb one message word (SipHash-1-3 uses a single compression
round per word). -/
def sipCompress (s : SipState) (m : Nat) : SipState :=
  let s1 : SipState := { s with v3 := s.v3 ^^^ m }
  let s2 := sipRound s1
  { s2 with v0 := s2.v0 ^^^ m }

/-- Little-endian word from a list of bytes (head is least significant). -/
def leWord (bs : List Nat) : Nat := bs.foldr (fun b acc => b % 256 + 256 * acc) 0

/-- Absorb all full 8-byte blocks of the message, returning the state
and the remaining (fewer than 8) bytes. -/
def sipBlocks (s : SipState) : List Nat → SipState × List Nat
  | b0 :: b1 :: b2 :: b3 :: b4 :: b5 :: b6 :: b7 :: rest =>
      sipBlocks (sipCompress s (leWord [b0, b1, b2, b3, b4, b5, b6, b7])) rest
  | bs => (s, bs)

/-- SipHash-1-3 of a byte string with key (0, 0), producing a 64-bit
word. Initial state constants are the standard SipHash constants
(XORed with the zero key), the final block carries the message length
in its top byte, and finalization XORs `0xff` into `v2` followed by
three rounds. -/
def sipHash13 (msg : List Nat) : Nat :=
  let s0 : SipState := ⟨0x736f6d6570736575, 0x646f72616e646f6d,
    0x6c7967656e657261, 0x7465646279746573⟩
  let br := sipBlocks s0 msg
  let b := (msg.length % 256) * 2 ^ 56 + leWord br.2
  let s1 := sipCompress br.1 b
  let s2 : SipState := { s1 with v2 := s1.v2 ^^^ 0xff }
  let s3 := sipRound (sipRound (sipRound s2))
  s3.v0 ^^^ s3.v1 ^^^ s3.v2 ^^^ s3.v3

/-- Canonical "modifiers+key" string built by `HotKey::generate_hash`:
conditional `shift+`, `control+`, `alt+`, `super+` fragments in that
order, followed by the display form of the key. -/
def hashText (mods : Modifiers) (key : Code) : String :=
  (if mods.shift then "shift+" else "")
    ++ (if mods.control then "control+" else "")
    ++ (if mods.alt then "alt+" else "")
    ++ (if mods.super then "super+" else "")
    ++ codeToString key

/-- The 32-bit id of a hotkey: Rust hashes the canonical string with
`DefaultHasher` (`str` hashing feeds the UTF-8 bytes followed by a
`0xff` terminator byte) and truncates the 64-bit result `as u32`. All
canonical strings are ASCII, so the bytes are the character codes. -/
def hotkeyHash (mods : Modifiers) (key : Code) : Nat :=
  sipHash13 ((hashText mods key).data.map Char.toNat ++ [0xff]) % 2 ^ 32

/-- A registered shortcut: modifier set, key, derived id
(`hotkey.rs`, struct `HotKey`). -/
structure HotKey where
  mods : Modifiers
  key : Code
  id : Nat
deriving DecidableEq

/-- Constructor `HotKey::new`: defaults missing modifiers to the empty
set, normalizes `META` into `SUPER` (remove `META`, insert `SUPER`),
then computes the hash id. -/
def HotKey.new (mods : Option Modifiers) (key : Code) : HotKey :=
  let m0 := mods.getD Modifiers.empty
  let m := if m0.meta then { m0 with meta := false, super := true } else m0
  { mods := m, key := key, id := hotkeyHash m key }

/-- The error variants of `crate::Error` used by the X11 backend. -/
inductive Error where
  | AlreadyRegistered (hotkey : HotKey)
  | FailedToRegister (msg : String)
  | FailedToUnRegister (hotkey : HotKey)
deriving DecidableEq

/-! X11 backend (`src/Source/platform_impl/x11/mod.rs`). -/

/-- X11 modifier-mask bit for Shift. -/
def shiftMask : Nat := 1

/-- X11 modifier-mask bit for CapsLock (`LockMask`). -/
def lockMask : Nat := 2

/-- X11 modifier-mask bit for Control. -/
def controlMask : Nat := 4

/-- X11 modifier-mask bit for Alt (`Mod1Mask`). -/
def mod1Mask : Nat := 8

/-- X11 modifier-mask bit for NumLock (`Mod2Mask`). -/
def mod2Mask : Nat := 16

/-- X11 modifier-mask bit for Super (`Mod4Mask`). -/
def mod4Mask : Nat := 64

/-- Constant `IGNORED_MODS`: the extra lock-modifier combinations each
grab is fanned out over (none, NumLock, CapsLock, NumLock + CapsLock). -/
def IGNORED_MODS : List Nat := [0, mod2Mask, lockMask, mod2Mask ||| lockMask]

/-- Function `modifiers_to_x11_mods`: translate the portable modifier
set to an X11 modifier bitmask. -/
def modifiers_to_x11_mods (modifiers : Modifiers) : Nat :=
  let x11mods := 0
  let x11mods := if modifiers.shift then x11mods ||| shiftMask else x11mods
  let x11mods := if modifiers.super || modifiers.meta then x11mods ||| mod4Mask else x11mods
  let x11mods := if modifiers.alt then x11mods ||| mod1Mask else x11mods
  let x11mods := if modifiers.control then x11mods ||| controlMask else x11mods
  x11mods

/-- Function `keycode_to_x11_scancode`: translate a `Code` to an X11
keysym (numeric values from the X11 / XF86 keysym headers); keys not in
the table give `none`. -/
def keycode_to_x11_scancode : Code → Option Nat
  | .KeyA => some 0x41 | .KeyB => some 0x42 | .KeyC => some 0x43
  | .KeyD => some 0x44 | .KeyE => some 0x45 | .KeyF => some 0x46
  | .KeyG => some 0x47 | .KeyH => some 0x48 | .KeyI => some 0x49
  | .KeyJ => some 0x4A | .KeyK => some 0x4B | .KeyL => some 0x4C
  | .KeyM => some 0x4D | .KeyN => some 0x4E | .KeyO => some 0x4F
  | .KeyP => some 0x50 | .KeyQ => some 0x51 | .KeyR => some 0x52
  | .KeyS => some 0x53 | .KeyT => some 0x54 | .KeyU => some 0x55
  | .KeyV => some 0x56 | .KeyW => some 0x57 | .KeyX => some 0x58
  | .KeyY => some 0x59 | .KeyZ => some 0x5A
  | .Backslash => some 0x5C | .BracketLeft => some 0x5B
  | .BracketRight => some 0x5D | .Backquote => some 0x60
  | .Comma => some 0x2C
  | .Digit0 => some 0x30 | .Digit1 => some 0x31 | .Digit2 => some 0x32
  | .Digit3 => some 0x33 | .Digit4 => some 0x34 | .Digit5 => some 0x35
  | .Digit6 => some 0x36 | .Digit7 => some 0x37 | .Digit8 => some 0x38
  | .Digit9 => some 0x39
  | .Equal => some 0x3D | .Minus => some 0x2D | .Period => some 0x2E
  | .Quote => some 0x0AD0 | .Semicolon => some 0x3B | .Slash => some 0x2F
  | .Backspace => some 0xFF08 | .CapsLock => some 0xFFE5
  | .Enter => some 0xFF0D | .Space => some 0x20 | .Tab => some 0xFF09
  | .Delete => some 0xFFFF | .End => some 0xFF57 | .Home => some 0xFF50
  | .Insert => some 0xFF63 | .PageDown => some 0xFF56 | .PageUp => some 0xFF55
  | .ArrowDown => some 0xFF54 | .ArrowLeft => some 0xFF51
  | .ArrowRight => some 0xFF53 | .ArrowUp => some 0xFF52
  | .Numpad0 => some 0xFFB0 | .Numpad1 => some 0xFFB1 | .Numpad2 => some 0xFFB2
  | .Numpad3 => some 0xFFB3 | .Numpad4 => some 0xFFB4 | .Numpad5 => some 0xFFB5
  | .Numpad6 => some 0xFFB6 | .Numpad7 => some 0xFFB7 | .Numpad8 => some 0xFFB8
  | .Numpad9 => some 0xFFB9
  | .NumpadAdd => some 0xFFAB | .NumpadDecimal => some 0xFFAE
  | .NumpadDivide => some 0xFFAF | .NumpadMultiply => some 0xFFAA
  | .NumpadSubtract => some 0xFFAD
  | .Escape => some 0xFF1B | .PrintScreen => some 0xFF61
  | .ScrollLock => some 0xFF14 | .NumLock => some 0xFFBE
  | .F1 => some 0xFFBE | .F2 => some 0xFFBF | .F3 => some 0xFFC0
  | .F4 => some 0xFFC1 | .F5 => some 0xFFC2 | .F6 => some 0xFFC3
  | .F7 => some 0xFFC4 | .F8 => some 0xFFC5 | .F9 => some 0xFFC6
  | .F10 => some 0xFFC7 | .F11 => some 0xFFC8 | .F12 => some 0xFFC9
  | .AudioVolumeDown => some 0x1008FF11 | .AudioVolumeMute => some 0x1008FF12
  | .AudioVolumeUp => some 0x1008FF13
  | .MediaPlay => some 0x1008FF14 | .MediaPause => some 0x1008FF31
  | .MediaStop => some 0x1008FF15 | .MediaTrackNext => some 0x1008FF17
  | .MediaTrackPrevious => some 0x1008FF16
  | .Pause => some 0xFF13
  | _ => none

deriving instance DecidableEq for Except

/-- A registration-table entry: `(hotkey id, modifier mask, pressed)`. -/
abbrev RegEntry := Nat × Nat × Bool

/-- The registration table `BTreeMap<u32, Vec<(u32, u32, bool)>>`,
keyed by X keycode, as a total function with default `[]`. -/
abbrev Table := Nat → List RegEntry

/-- A call into the X server issued by the grab controller. -/
inductive XCall where
  | grabKey (keycode mask : Nat)
  | ungrabKey (keycode mask : Nat)
deriving DecidableEq

/-- Result of `register_hotkey` / `unregister_hotkey`: returned value,
table after the call, and the X calls issued (in order). -/
structure RegResult where
  result : Except Error Unit
  table : Table
  calls : List XCall

/-- The `for m in IGNORED_MODS` grab loop of `register_hotkey`: grabs
each mask variant in turn and stops at the first `BadAccess` answer
(`gf keycode mask = true`). Returns whether every grab succeeded and
the grab calls issued. -/
def grabAll (gf : Nat → Nat → Bool) (keycode mods : Nat) : List Nat → Bool × List XCall
  | [] => (true, [])
  | m :: ms =>
    if gf keycode (mods ||| m) then
      (false, [XCall.grabKey keycode (mods ||| m)])
    else
      let r := grabAll gf keycode mods ms
      (r.1, XCall.grabKey keycode (mods ||| m) :: r.2)

/-- Function `register_hotkey`: translate the hotkey, grab the four
lock-modifier variants (on a `BadAccess` answer ungrab all four and
fail with `AlreadyRegistered`), then insert a fresh entry unless one
with the same modifier mask is already present. `k2k` is the server's
`XKeysymToKeycode` mapping and `gf` tells which grab requests answer
`BadAccess`. -/
def register_hotkey (k2k : Nat → Nat) (gf : Nat → Nat → Bool)
    (hotkeys : Table) (hotkey : HotKey) : RegResult :=
  let modifiers := modifiers_to_x11_mods hotkey.mods
  match keycode_to_x11_scancode hotkey.key with
  | some key =>
    let keycode := k2k key
    let g := grabAll gf keycode modifiers IGNORED_MODS
    if g.1 = false then
      { result := .error (.AlreadyRegistered hotkey), table := hotkeys,
        calls := g.2 ++ IGNORED_MODS.map (fun m => XCall.ungrabKey keycode (modifiers ||| m)) }
    else
      let entry := hotkeys keycode
      match entry.find? (fun e => e.2.1 == modifiers) with
      | none =>
        { result := .ok (),
          table := fun sc => if sc = keycode then entry ++ [(hotkey.id, modifiers, false)] else hotkeys sc,
          calls := g.2 }
      | some _ =>
        { result := .error (.AlreadyRegistered hotkey), table := hotkeys, calls := g.2 }
  | none =>
    { result := .error (.FailedToRegister
        ("Unable to register accelerator (unknown scancode for this key: "
          ++ codeToString hotkey.key ++ ").")),
      table := hotkeys, calls := [] }

/-- Function `unregister_hotkey`: translate the hotkey, ungrab the four
lock-modifier variants unconditionally, and drop every entry with the
hotkey's modifier mask from the keycode's list; fails only when the key
has no X11 translation. -/
def unregister_hotkey (k2k : Nat → Nat) (hotkeys : Table) (hotkey : HotKey) : RegResult :=
  let modifiers := modifiers_to_x11_mods hotkey.mods
  match keycode_to_x11_scancode hotkey.key with
  | some key =>
    let keycode := k2k key
    { result := .ok (),
      table := fun sc => if sc = keycode
        then (hotkeys keycode).filter (fun k => k.2.1 != modifiers)
        else hotkeys sc,
      calls := IGNORED_MODS.map (fun m => XCall.ungrabKey keycode (modifiers ||| m)) }
  | none =>
    { result := .error (.FailedToUnRegister hotkey), table := hotkeys, calls := [] }

/-- State carried by a notification (`HotKeyState`). -/
inductive HotKeyState where
  | Pressed
  | Released
deriving DecidableEq

/-- A press/release notification (`GlobalHotKeyEvent`). -/
structure GlobalHotKeyEvent where
  id : Nat
  state : HotKeyState
deriving DecidableEq

/-- Kind of a native input event seen by the drain loop. -/
inductive XEventType where
  | keyPress
  | keyRelease
  | other
deriving DecidableEq

/-- Bits the drain loop keeps of an event's modifier state:
`ControlMask | ShiftMask | Mod4Mask | Mod1Mask`. -/
def eventModsMask : Nat := controlMask ||| shiftMask ||| mod4Mask ||| mod1Mask

/-- The `KeyPress` arm of the drain loop over one keycode's entry list:
every entry whose mask equals the event's masked modifier state and
whose `pressed` flag is off fires a `Pressed` notification and has the
flag set. Returns the updated list and the notifications in emission
order. -/
def processPress (eventMods : Nat) : List RegEntry → List RegEntry × List GlobalHotKeyEvent
  | [] => ([], [])
  | (i, mods, pressed) :: rest =>
    let r := processPress eventMods rest
    if eventMods = mods ∧ pressed = false then
      ((i, mods, true) :: r.1, ⟨i, .Pressed⟩ :: r.2)
    else
      ((i, mods, pressed) :: r.1, r.2)

/-- The `KeyRelease` arm of the drain loop over one keycode's entry
list: every entry whose `pressed` flag is on fires a `Released`
notification and has the flag cleared; the event's modifier state is
not consulted. -/
def processRelease : List RegEntry → List RegEntry × List GlobalHotKeyEvent
  | [] => ([], [])
  | (i, mods, pressed) :: rest =>
    let r := processRelease rest
    if pressed then
      ((i, mods, false) :: r.1, ⟨i, .Released⟩ :: r.2)
    else
      ((i, mods, pressed) :: r.1, r.2)

/-- Processing of one native key event by the drain phase of
`events_processor`: mask the event's modifier state down to
Control/Shift/Super/Alt, look up the keycode's entry list (absent key
behaves as the empty list) and apply the press or release arm. -/
def processKeyEvent (hotkeys : Table) (etype : XEventType) (keycode state : Nat) :
    Table × List GlobalHotKeyEvent :=
  let eventMods := state &&& eventModsMask
  match etype with
  | .keyPress =>
    let r := processPress eventMods (hotkeys keycode)
    (fun sc => if sc = keycode then r.1 else hotkeys sc, r.2)
  | .keyRelease =>
    let r := processRelease (hotkeys keycode)
    (fun sc => if sc = keycode then r.1 else hotkeys sc, r.2)
  | .other => (hotkeys, [])

/-- The `ThreadMessage::RegisterHotKeys` arm of `events_processor`:
register every hotkey of the batch in order, sending an error message
into the reply channel for each failing item, and a final `Ok` after
the loop. Returns the final table and the list of sent messages in
order. -/
def register_all_worker (k2k : Nat → Nat) (gf : Nat → Nat → Bool)
    (tbl : Table) : List HotKey → Table × List (Except Error Unit)
  | [] => (tbl, [Except.ok ()])
  | h :: rest =>
    let r := register_hotkey k2k gf tbl h
    let w := register_all_worker k2k gf r.table rest
    match r.result with
    | .error e => (w.1, Except.error e :: w.2)
    | .ok _ => w

/-- The `ThreadMessage::UnRegisterHotKeys` arm of `events_processor`:
unregister every hotkey of the batch in order, sending an error message
for each failing item and a final `Ok` after the loop. -/
def unregister_all_worker (k2k : Nat → Nat)
    (tbl : Table) : List HotKey → Table × List (Except Error Unit)
  | [] => (tbl, [Except.ok ()])
  | h :: rest =>
    let r := unregister_hotkey k2k tbl h
    let w := unregister_all_worker k2k r.table rest
    match r.result with
    | .error e => (w.1, Except.error e :: w.2)
    | .ok _ => w

namespace GlobalHotKeyManager

/-- Method `GlobalHotKeyManager::register`: sends the command and then
runs `if let Ok(result) = rx.recv() { result?; } Ok(())`; `reply` is
what the single `recv` yields (`none` when the channel is
disconnected). The hotkey argument only goes into the sent command. -/
def register (_hotkey : HotKey) (reply : Option (Except Error Unit)) : Except Error Unit :=
  match reply with
  | some (.error e) => .error e
  | some (.ok _) => .ok ()
  | none => .ok ()

/-- Method `GlobalHotKeyManager::unregister`: same reply handling as
`register`. -/
def unregister (_hotkey : HotKey) (reply : Option (Except Error Unit)) : Except Error Unit :=
  match reply with
  | some (.error e) => .error e
  | some (.ok _) => .ok ()
  | none => .ok ()

/-- Method `GlobalHotKeyManager::register_all`: same reply handling as
`register`, with a batch payload. -/
def register_all (_hotkeys : List HotKey) (reply : Option (Except Error Unit)) : Except Error Unit :=
  match reply with
  | some (.error e) => .error e
  | some (.ok _) => .ok ()
  | none => .ok ()

/-- Method `GlobalHotKeyManager::unregister_all`: same reply handling
as `register`, with a batch payload. -/
def unregister_all (_hotkeys : List HotKey) (reply : Option (Except Error Unit)) : Except Error Unit :=
  match reply with
  | some (.error e) => .error e
  | some (.ok _) => .ok ()
  | none => .ok ()

end GlobalHotKeyManager

/-- What the blocked `register_all` caller observes: the reply channel
has capacity one and the worker's sends happen while the caller waits,
so the single `recv` yields the worker's first message (later messages
are sent into a channel whose receiver is gone and are discarded by
`let _ =`). -/
def register_all_caller (k2k : Nat → Nat) (gf : Nat → Nat → Bool)
    (tbl : Table) (batch : List HotKey) : Except Error Unit :=
  GlobalHotKeyManager.register_all batch (register_all_worker k2k gf tbl batch).2.head?

/-- What the blocked `unregister_all` caller observes (first message
sent by the worker, as for `register_all_caller`). -/
def unregister_all_caller (k2k : Nat → Nat)
    (tbl : Table) (batch : List HotKey) : Except Error Unit :=
  GlobalHotKeyManager.unregister_all batch (unregister_all_worker k2k tbl batch).2.head?

/-- An operation the event loop can apply to the registration table:
a register command, an unregister command, or a native key event. -/
inductive Op where
  | reg (h : HotKey)
  | unreg (h : HotKey)
  | key (t : XEventType) (keycode state : Nat)

/-- Effect of one operation on the registration table. -/
def applyOp (k2k : Nat → Nat) (gf : Nat → Nat → Bool) (tbl : Table) : Op → Table
  | .reg h => (register_hotkey k2k gf tbl h).table
  | .unreg h => (unregister_hotkey k2k tbl h).table
  | .key t keycode state => (processKeyEvent tbl t keycode state).1

/-- Table reached by running a sequence of operations from the empty
table the event loop starts with. -/
def runOps (k2k : Nat → Nat) (gf : Nat → Nat → Bool) (ops : List Op) : Table :=
  ops.foldl (applyOp k2k gf) (fun _ => [])

/-! Concrete fixtures used by witnesses and counterexamples. -/

/-- Hotkey `KeyA` with no modifiers (X11 mask 0). -/
def hA : HotKey := HotKey.new none .KeyA

/-- Hotkey `KeyB` with no modifiers. -/
def hB : HotKey := HotKey.new none .KeyB

/-- Hotkey `F13` with no modifiers; `F13` has no X11 translation. -/
def hF13 : HotKey := HotKey.new none .F13

/-- A concrete `XKeysymToKeycode` answer: every keysym sits on keycode 38. -/
def k2kA : Nat → Nat := fun _ => 38

/-- A grab oracle under which no grab request answers `BadAccess`. -/
def gfFalse : Nat → Nat → Bool := fun _ _ => false

/-- A grab oracle under which the grab of keycode 38 with mask
`Mod2Mask` (NumLock variant) answers `BadAccess`. -/
def gfNum : Nat → Nat → Bool := fun kc mask => kc = 38 && mask = mod2Mask

/-- A table holding exactly the entry of `hA` under keycode 38. -/
def tblA : Table := fun sc => if sc = 38 then [(hA.id, 0, false)] else []

/-! Helper lemmas about the drain-phase list transformers. -/

/-- A press event leaves an entry list untouched and emits nothing when
every entry matching the event's modifier state is already pressed. -/
theorem processPress_quiet (em : Nat) (l : List RegEntry)
    (h : ∀ e ∈ l, e.2.1 = em → e.2.2 = true) : processPress em l = (l, []) := by
  induction l with
  | nil => rfl
  | cons e rest ih =>
    obtain ⟨i, m, p⟩ := e
    have hrest := ih (fun x hx => h x (List.mem_cons_of_mem _ hx))
    have hne : ¬(em = m ∧ p = false) := by
      rintro ⟨rfl, rfl⟩
      exact Bool.false_ne_true (h (i, em, false) (List.mem_cons_self _ _) rfl)
    simp only [processPress, hrest, if_neg hne]

/-- A press event whose masked modifier state matches the single
unpressed entry carrying that mask fires exactly that entry. -/
theorem processPress_fires (em i : Nat) (l₁ l₂ : List RegEntry)
    (h₁ : ∀ e ∈ l₁, e.2.1 ≠ em) (h₂ : ∀ e ∈ l₂, e.2.1 ≠ em) :
    processPress em (l₁ ++ (i, em, false) :: l₂)
      = (l₁ ++ (i, em, true) :: l₂, [⟨i, .Pressed⟩]) := by
  induction l₁ with
  | nil =>
    have hq := processPress_quiet em l₂ (fun e he hm => absurd hm (h₂ e he))
    simp only [List.nil_append, processPress, hq]
    simp
  | cons e rest ih =>
    obtain ⟨j, m, p⟩ := e
    have hne : ¬(em = m ∧ p = false) := by
      rintro ⟨rfl, -⟩
      exact h₁ (j, em, p) (List.mem_cons_self _ _) rfl
    have hih := ih (fun x hx => h₁ x (List.mem_cons_of_mem _ hx))
    simp only [List.cons_append, processPress, List.append_eq, hih, if_neg hne]

/-- Press processing does not change the modifier masks of a list. -/
theorem processPress_masks (em : Nat) (l : List RegEntry) :
    (processPress em l).1.map (fun e => e.2.1) = l.map (fun e => e.2.1) := by
  induction l with
  | nil => rfl
  | cons e rest ih =>
    obtain ⟨i, m, p⟩ := e
    by_cases hc : em = m ∧ p = false
    · simp only [processPress, if_pos hc, List.map_cons, ih]
    · simp only [processPress, if_neg hc, List.map_cons, ih]

/-- Full characterization of release processing: every pressed entry
fires one `Released` notification in list order, and every flag ends up
cleared. -/
theorem processRelease_spec (l : List RegEntry) :
    processRelease l = (l.map (fun e => (e.1, e.2.1, false)),
      (l.filter (fun e => e.2.2)).map (fun e => ⟨e.1, HotKeyState.Released⟩)) := by
  induction l with
  | nil => rfl
  | cons e rest ih =>
    obtain ⟨i, m, p⟩ := e
    cases p <;> simp [processRelease, ih, List.filter_cons]

/-- Release processing does not change the modifier masks of a list. -/
theorem processRelease_masks (l : List RegEntry) :
    (processRelease l).1.map (fun e => e.2.1) = l.map (fun e => e.2.1) := by
  rw [processRelease_spec, List.map_map]
  rfl

/-- C1: a key-press event for scancode `keycode` whose masked modifier
state equals the mask of a registered, unpressed entry emits exactly
one `Pressed` notification carrying that entry's id and sets the
entry's flag; an identical second press event before any release emits
nothing. The entry-list is assumed duplicate-mask free, the invariant
establishd at registration time. -/
theorem c1_press_dedup (tbl : Table) (keycode state i m : Nat)
    (hinv : ((tbl keycode).map (fun e => e.2.1)).Nodup)
    (hmem : (i, m, false) ∈ tbl keycode)
    (hmods : state &&& eventModsMask = m) :
    (processKeyEvent tbl .keyPress keycode state).2 = [⟨i, .Pressed⟩]
    ∧ (i, m, true) ∈ (processKeyEvent tbl .keyPress keycode state).1 keycode
    ∧ (processKeyEvent (processKeyEvent tbl .keyPress keycode state).1
        .keyPress keycode state).2 = [] := by
  obtain ⟨l₁, l₂, hsplit⟩ := List.append_of_mem hmem
  have hnod : ¬(m ∈ l₁.map (fun e => e.2.1) ∨ m ∈ l₂.map (fun e => e.2.1)) := by
    rw [hsplit] at hinv
    simp only [List.map_append, List.map_cons] at hinv
    have := List.nodup_middle.mp hinv
    rw [List.nodup_cons] at this
    simpa [List.mem_append] using this.1
  push_neg at hnod
  have h₁ : ∀ e ∈ l₁, e.2.1 ≠ m := fun e he hc =>
    hnod.1 (hc ▸ List.mem_map_of_mem (fun e => e.2.1) he)
  have h₂ : ∀ e ∈ l₂, e.2.1 ≠ m := fun e he hc =>
    hnod.2 (hc ▸ List.mem_map_of_mem (fun e => e.2.1) he)
  have hfire := processPress_fires m i l₁ l₂ h₁ h₂
  have hq : processPress m (l₁ ++ (i, m, true) :: l₂) = (l₁ ++ (i, m, true) :: l₂, []) := by
    apply processPress_quiet
    intro e he hme
    rcases List.mem_append.mp he with he' | he'
    · exact absurd hme (h₁ e he')
    · rcases List.mem_cons.mp he' with rfl | he''
      · rfl
      · exact absurd hme (h₂ e he'')
  refine ⟨?_, ?_, ?_⟩
  · simp only [processKeyEvent, hmods, hsplit, hfire]
  · simp only [processKeyEvent, hmods, hsplit, hfire, if_pos rfl]
    simp
  · have htab : (processKeyEvent tbl .keyPress keycode state).1 keycode
        = l₁ ++ (i, m, true) :: l₂ := by
      simp only [processKeyEvent, hmods, hsplit, hfire]
      simp
    show (processPress (state &&& eventModsMask)
        ((processKeyEvent tbl .keyPress keycode state).1 keycode)).2 = []
    rw [hmods, htab, hq]

/-- Witness for C1: a table with one entry under keycode 38, mask 5
(Control+Shift), press with state 5. -/
theorem c1_press_dedup_witness :
    ((((fun sc => if sc = 38 then [(7, 5, false)] else []) : Table) 38).map
        (fun e => e.2.1)).Nodup
    ∧ ((7 : Nat), (5 : Nat), false) ∈ ((fun sc => if sc = 38 then [(7, 5, false)] else []) : Table) 38
    ∧ (5 : Nat) &&& eventModsMask = 5
    ∧ (processKeyEvent (fun sc => if sc = 38 then [(7, 5, false)] else []) .keyPress 38 5).2
        = [⟨7, .Pressed⟩] :=
  ⟨by decide, by decide, by decide,
    (c1_press_dedup (fun sc => if sc = 38 then [(7, 5, false)] else []) 38 5 7 5
      (by decide) (by decide) (by decide)).1⟩

/-- C2: a key-release event for a scancode emits exactly one `Released`
notification for every entry whose `pressed` flag is on (in list
order), clears every flag, touches no other scancode's list, and is
independent of the event's modifier state. -/
theorem c2_release_processing (tbl : Table) (keycode state state' : Nat) :
    processKeyEvent tbl .keyRelease keycode state
      = (fun sc => if sc = keycode
            then (tbl keycode).map (fun e => (e.1, e.2.1, false)) else tbl sc,
         ((tbl keycode).filter (fun e => e.2.2)).map (fun e => ⟨e.1, HotKeyState.Released⟩))
    ∧ processKeyEvent tbl .keyRelease keycode state
      = processKeyEvent tbl .keyRelease keycode state' := by
  refine ⟨?_, rfl⟩
  simp only [processKeyEvent, processRelease_spec]

/-- C8: all four blocking manager calls answer plain success when the
reply channel is disconnected and never answered. -/
theorem c8_disconnected_reply_is_ok :
    (∀ h : HotKey, GlobalHotKeyManager.register h none = .ok ())
    ∧ (∀ h : HotKey, GlobalHotKeyManager.unregister h none = .ok ())
    ∧ (∀ hs : List HotKey, GlobalHotKeyManager.register_all hs none = .ok ())
    ∧ (∀ hs : List HotKey, GlobalHotKeyManager.unregister_all hs none = .ok ()) :=
  ⟨fun _ => rfl, fun _ => rfl, fun _ => rfl, fun _ => rfl⟩

/-- C10: `HotKey::new` normalizes `META` into `SUPER`: building with
`META` set gives the same hotkey (same stored modifiers and same id) as
building with `SUPER` set, and no constructed hotkey ever stores
`META`. -/
theorem c10_meta_normalization :
    (∀ (m : Modifiers) (k : Code),
      HotKey.new (some { m with meta := true }) k
        = HotKey.new (some { m with super := true }) k)
    ∧ (∀ (mo : Option Modifiers) (k : Code), (HotKey.new mo k).mods.meta = false) := by
  constructor
  · intro m k
    obtain ⟨alt, ag, cl, ct, fk, fl, mt, nl, sl, sh, sy, syl, hy, su⟩ := m
    cases mt <;> rfl
  · intro mo k
    match mo with
    | none => rfl
    | some m =>
      obtain ⟨alt, ag, cl, ct, fk, fl, mt, nl, sl, sh, sy, syl, hy, su⟩ := m
      cases mt <;> rfl


/-- The registration-table invariant: within one scancode's list no
two entries share a modifier mask. -/
def MaskInv (tbl : Table) : Prop :=
  ∀ sc, ((tbl sc).map (fun e => e.2.1)).Nodup

/-- The invariant is preserved by `register_hotkey`: an entry is only
pushed when `find?` saw no entry with the same mask. -/
theorem maskInv_register (k2k : Nat → Nat) (gf : Nat → Nat → Bool)
    (tbl : Table) (h : HotKey) (hi : MaskInv tbl) :
    MaskInv (register_hotkey k2k gf tbl h).table := by
  intro sc
  simp only [register_hotkey]
  split
  case h_2 => exact hi sc
  case h_1 key hkey =>
    split
    · exact hi sc
    · split
      case h_2 => exact hi sc
      case h_1 e hfind =>
        by_cases hsc : sc = k2k key
        · simp only [hsc, eq_self_iff_true, if_true, List.map_append, List.map_cons, List.map_nil]
          rw [List.nodup_append]
          refine ⟨hi (k2k key), List.nodup_singleton _, ?_⟩
          intro a ha hb
          rcases List.mem_map.mp ha with ⟨x, hx, rfl⟩
          have hxm := List.mem_singleton.mp hb
          have hnf := List.find?_eq_none.mp hfind x hx
          rw [hxm] at hnf
          simp at hnf
        · simp only [if_neg hsc]
          exact hi sc

/-- The invariant is preserved by `unregister_hotkey` (entry removal). -/
theorem maskInv_unregister (k2k : Nat → Nat) (tbl : Table) (h : HotKey)
    (hi : MaskInv tbl) : MaskInv (unregister_hotkey k2k tbl h).table := by
  intro sc
  simp only [unregister_hotkey]
  split
  case h_2 => exact hi sc
  case h_1 key hkey =>
    by_cases hsc : sc = k2k key
    · simp only [hsc, if_pos rfl]
      exact ((List.filter_sublist _).map _).nodup (hi (k2k key))
    · simp only [if_neg hsc]
      exact hi sc

/-- The invariant is preserved by event processing (masks unchanged). -/
theorem maskInv_key (tbl : Table) (t : XEventType) (keycode state : Nat)
    (hi : MaskInv tbl) : MaskInv (processKeyEvent tbl t keycode state).1 := by
  intro sc
  match t with
  | .keyPress =>
    simp only [processKeyEvent]
    by_cases hsc : sc = keycode
    · simp only [hsc, eq_self_iff_true, if_true, processPress_masks]
      exact hi keycode
    · simp only [if_neg hsc]
      exact hi sc
  | .keyRelease =>
    simp only [processKeyEvent]
    by_cases hsc : sc = keycode
    · simp only [hsc, eq_self_iff_true, if_true, processRelease_masks]
      exact hi keycode
    · simp only [if_neg hsc]
      exact hi sc
  | .other => exact hi sc

/-- The invariant is preserved by every operation. -/
theorem maskInv_applyOp (k2k : Nat → Nat) (gf : Nat → Nat → Bool)
    (tbl : Table) (op : Op) (hi : MaskInv tbl) :
    MaskInv (applyOp k2k gf tbl op) := by
  match op with
  | .reg h => exact maskInv_register k2k gf tbl h hi
  | .unreg h => exact maskInv_unregister k2k tbl h hi
  | .key t keycode state => exact maskInv_key tbl t keycode state hi

/-- Every table reachable from the empty start table satisfies the
invariant. -/
theorem maskInv_runOps (k2k : Nat → Nat) (gf : Nat → Nat → Bool)
    (ops : List Op) : MaskInv (runOps k2k gf ops) := by
  have key : ∀ (l : List Op) (t : Table), MaskInv t →
      MaskInv (l.foldl (applyOp k2k gf) t) := by
    intro l
    induction l with
    | nil => exact fun t ht => ht
    | cons op rest ih =>
      intro t ht
      exact ih _ (maskInv_applyOp k2k gf t op ht)
  exact key ops _ (fun _ => List.nodup_nil)

/-- C3: registering a hotkey that resolves to a (scancode, mask) pair
already present fails with `AlreadyRegistered`, leaves the table
untouched and in particular keeps exactly one entry with that mask;
and after any sequence of operations from the empty table, no
scancode's list holds two entries with equal modifier masks. -/
theorem c3_duplicate_rejected (k2k : Nat → Nat) (gf : Nat → Nat → Bool)
    (tbl : Table) (h : HotKey) (ks : Nat)
    (hks : keycode_to_x11_scancode h.key = some ks)
    (hdup : (tbl (k2k ks)).countP (fun e => e.2.1 == modifiers_to_x11_mods h.mods) = 1) :
    ((register_hotkey k2k gf tbl h).result = .error (.AlreadyRegistered h)
      ∧ (register_hotkey k2k gf tbl h).table = tbl
      ∧ ((register_hotkey k2k gf tbl h).table (k2k ks)).countP
          (fun e => e.2.1 == modifiers_to_x11_mods h.mods) = 1)
    ∧ ∀ (ops : List Op) (sc : Nat),
        ((runOps k2k gf ops sc).map (fun e => e.2.1)).Nodup := by
  constructor
  · have hfind : (tbl (k2k ks)).find? (fun e => e.2.1 == modifiers_to_x11_mods h.mods) ≠ none := by
      intro hnone
      have hz := List.countP_eq_zero.mpr (fun e he => List.find?_eq_none.mp hnone e he)
      rw [hdup] at hz
      exact one_ne_zero hz
    simp only [register_hotkey, hks]
    split
    · exact ⟨rfl, rfl, hdup⟩
    · split
      case h_1 e hf => exact absurd hf hfind
      case h_2 => exact ⟨rfl, rfl, hdup⟩
  · exact fun ops sc => maskInv_runOps k2k gf ops sc

/-- Witness for C3: the table already holding `hA` (KeyA, mask 0) under
keycode 38 rejects a second registration of `hA`. -/
theorem c3_duplicate_rejected_witness :
    keycode_to_x11_scancode hA.key = some 0x41
    ∧ (tblA (k2kA 0x41)).countP (fun e => e.2.1 == modifiers_to_x11_mods hA.mods) = 1
    ∧ (register_hotkey k2kA gfFalse tblA hA).result = .error (.AlreadyRegistered hA) :=
  ⟨by decide, by decide,
    (c3_duplicate_rejected k2kA gfFalse tblA hA 0x41 (by decide) (by decide)).1.1⟩

/-- The table produced by attempting registration of every batch item
in order, carrying on past failures. -/
def batchRegisterTable (k2k : Nat → Nat) (gf : Nat → Nat → Bool)
    (tbl : Table) : List HotKey → Table
  | [] => tbl
  | h :: rest => batchRegisterTable k2k gf (register_hotkey k2k gf tbl h).table rest

/-- The registration errors encountered over a batch, in batch order. -/
def batchRegisterErrors (k2k : Nat → Nat) (gf : Nat → Nat → Bool)
    (tbl : Table) : List HotKey → List Error
  | [] => []
  | h :: rest =>
    let r := register_hotkey k2k gf tbl h
    match r.result with
    | .error e => e :: batchRegisterErrors k2k gf r.table rest
    | .ok _ => batchRegisterErrors k2k gf r.table rest

/-- The table produced by attempting unregistration of every batch item
in order, carrying on past failures. -/
def batchUnregisterTable (k2k : Nat → Nat) (tbl : Table) : List HotKey → Table
  | [] => tbl
  | h :: rest => batchUnregisterTable k2k (unregister_hotkey k2k tbl h).table rest

/-- The unregistration errors encountered over a batch, in batch order. -/
def batchUnregisterErrors (k2k : Nat → Nat) (tbl : Table) : List HotKey → List Error
  | [] => []
  | h :: rest =>
    let r := unregister_hotkey k2k tbl h
    match r.result with
    | .error e => e :: batchUnregisterErrors k2k r.table rest
    | .ok _ => batchUnregisterErrors k2k r.table rest

/-- C4 (amended): the `register_all` worker attempts every batch item
even after failures (its final table threads all items) and sends one
message per failing item followed by a final `Ok`; the blocked caller,
reading the bounded reply channel once, therefore observes the FIRST
error encountered in the batch when any item fails — not the last —
and `Ok` when none fails. Earlier successes are not rolled back. -/
theorem c4_register_all_first_error_wins (k2k : Nat → Nat) (gf : Nat → Nat → Bool)
    (tbl : Table) (batch : List HotKey) :
    register_all_worker k2k gf tbl batch
      = (batchRegisterTable k2k gf tbl batch,
         (batchRegisterErrors k2k gf tbl batch).map Except.error ++ [Except.ok ()])
    ∧ register_all_caller k2k gf tbl batch
      = (batchRegisterErrors k2k gf tbl batch).head?.elim (Except.ok ()) Except.error := by
  have hw : ∀ (l : List HotKey) (t : Table),
      register_all_worker k2k gf t l
        = (batchRegisterTable k2k gf t l,
           (batchRegisterErrors k2k gf t l).map Except.error ++ [Except.ok ()]) := by
    intro l
    induction l with
    | nil => intro t; rfl
    | cons h rest ih =>
      intro t
      simp only [register_all_worker, batchRegisterTable, batchRegisterErrors, ih]
      match hr : (register_hotkey k2k gf t h).result with
      | .error e => simp
      | .ok _ => simp
  refine ⟨hw batch tbl, ?_⟩
  unfold register_all_caller
  rw [hw batch tbl]
  match (batchRegisterErrors k2k gf tbl batch) with
  | [] => rfl
  | e :: _ => rfl

/-- Counterexample for C4: in the batch `[hA, hF13]` over a table where
`hA` is already registered, the first item fails with
`AlreadyRegistered` and the second (last) with `FailedToRegister`; the
caller receives the first error, which differs from the last. -/
theorem c4_counterexample :
    (register_all_worker k2kA gfFalse tblA [hA, hF13]).2
      = [Except.error (Error.AlreadyRegistered hA),
         Except.error (Error.FailedToRegister
           "Unable to register accelerator (unknown scancode for this key: F13)."),
         Except.ok ()]
    ∧ register_all_caller k2kA gfFalse tblA [hA, hF13]
        = Except.error (Error.AlreadyRegistered hA)
    ∧ Error.AlreadyRegistered hA
        ≠ Error.FailedToRegister
            "Unable to register accelerator (unknown scancode for this key: F13)." :=
  ⟨by decide, by decide, by decide⟩

/-- C5 (amended): the `unregister_all` worker attempts every batch item
and sends one message per failing item followed by a final `Ok`; the
blocked caller observes the FIRST per-item failure when one occurs
(possible exactly when some item's key has no X11 translation), and
`Ok` otherwise — not unconditional success. -/
theorem c5_unregister_all_first_error_wins (k2k : Nat → Nat)
    (tbl : Table) (batch : List HotKey) :
    unregister_all_worker k2k tbl batch
      = (batchUnregisterTable k2k tbl batch,
         (batchUnregisterErrors k2k tbl batch).map Except.error ++ [Except.ok ()])
    ∧ unregister_all_caller k2k tbl batch
      = (batchUnregisterErrors k2k tbl batch).head?.elim (Except.ok ()) Except.error := by
  have hw : ∀ (l : List HotKey) (t : Table),
      unregister_all_worker k2k t l
        = (batchUnregisterTable k2k t l,
           (batchUnregisterErrors k2k t l).map Except.error ++ [Except.ok ()]) := by
    intro l
    induction l with
    | nil => intro t; rfl
    | cons h rest ih =>
      intro t
      simp only [unregister_all_worker, batchUnregisterTable, batchUnregisterErrors, ih]
      match hr : (unregister_hotkey k2k t h).result with
      | .error e => simp
      | .ok _ => simp
  refine ⟨hw batch tbl, ?_⟩
  unfold unregister_all_caller
  rw [hw batch tbl]
  match (batchUnregisterErrors k2k tbl batch) with
  | [] => rfl
  | e :: _ => rfl

/-- Counterexample for C5: a batch holding the untranslatable `hF13`
makes the `unregister_all` caller observe `FailedToUnRegister`, not
the claimed unconditional `Ok`. -/
theorem c5_counterexample :
    unregister_all_caller k2kA (fun _ => []) [hF13]
      = Except.error (Error.FailedToUnRegister hF13)
    ∧ (Except.error (Error.FailedToUnRegister hF13) : Except Error Unit)
      ≠ Except.ok () :=
  ⟨by decide, by decide⟩

/-- When no grab request answers `BadAccess`, the grab loop issues
exactly one grab per listed mask variant, in order. -/
theorem grabAll_success (gf : Nat → Nat → Bool) (kc base : Nat) (ms : List Nat)
    (h : ∀ m ∈ ms, gf kc (base ||| m) = false) :
    grabAll gf kc base ms = (true, ms.map (fun m => XCall.grabKey kc (base ||| m))) := by
  induction ms with
  | nil => rfl
  | cons m rest ih =>
    have hm := h m (List.mem_cons_self _ _)
    have hr := ih (fun x hx => h x (List.mem_cons_of_mem _ hx))
    simp only [grabAll, hm, Bool.false_eq_true, if_false, hr, List.map_cons]

/-- When some grab request answers `BadAccess`, the grab loop reports
failure and every call it issued is a grab of one of the listed mask
variants. -/
theorem grabAll_fail (gf : Nat → Nat → Bool) (kc base : Nat) (ms : List Nat)
    (h : ∃ m ∈ ms, gf kc (base ||| m) = true) :
    (grabAll gf kc base ms).1 = false
    ∧ ∀ c ∈ (grabAll gf kc base ms).2, ∃ m ∈ ms, c = XCall.grabKey kc (base ||| m) := by
  induction ms with
  | nil => simp at h
  | cons m rest ih =>
    by_cases hm : gf kc (base ||| m) = true
    · simp only [grabAll, hm, if_true]
      refine ⟨by simp, ?_⟩
      intro c hc
      rcases List.mem_singleton.mp hc with rfl
      exact ⟨m, List.mem_cons_self _ _, rfl⟩
    · have h' : ∃ x ∈ rest, gf kc (base ||| x) = true := by
        rcases h with ⟨x, hx, hgx⟩
        rcases List.mem_cons.mp hx with rfl | hx'
        · exact absurd hgx hm
        · exact ⟨x, hx', hgx⟩
      have hr := ih h'
      simp only [grabAll, hm, if_false]
      refine ⟨hr.1, ?_⟩
      intro c hc
      rcases List.mem_cons.mp hc with rfl | hc'
      · exact ⟨m, List.mem_cons_self _ _, rfl⟩
      · rcases hr.2 c hc' with ⟨x, hx, rfl⟩
        exact ⟨x, List.mem_cons_of_mem _ hx, rfl⟩

/-- C6: for a hotkey whose key resolves, registration fans the grab out
over exactly the four lock-modifier variants (base, base+NumLock,
base+CapsLock, base+both) when no request conflicts; and when any of
the four requests answers `BadAccess`, it answers `AlreadyRegistered`,
leaves the table unchanged (no entry inserted), and its call trace is
some prefix of grabs of those variants followed by ungrabs of all four
variants. -/
theorem c6_grab_fanout (k2k : Nat → Nat) (gf : Nat → Nat → Bool) (tbl : Table)
    (h : HotKey) (ks : Nat)
    (hks : keycode_to_x11_scancode h.key = some ks) :
    ((∀ m ∈ IGNORED_MODS, gf (k2k ks) (modifiers_to_x11_mods h.mods ||| m) = false) →
      (register_hotkey k2k gf tbl h).calls
        = IGNORED_MODS.map (fun m => XCall.grabKey (k2k ks) (modifiers_to_x11_mods h.mods ||| m)))
    ∧ ((∃ m ∈ IGNORED_MODS, gf (k2k ks) (modifiers_to_x11_mods h.mods ||| m) = true) →
      (register_hotkey k2k gf tbl h).result = .error (.AlreadyRegistered h)
      ∧ (register_hotkey k2k gf tbl h).table = tbl
      ∧ ∃ gs, (register_hotkey k2k gf tbl h).calls
            = gs ++ IGNORED_MODS.map
                (fun m => XCall.ungrabKey (k2k ks) (modifiers_to_x11_mods h.mods ||| m))
          ∧ ∀ c ∈ gs, ∃ m ∈ IGNORED_MODS,
              c = XCall.grabKey (k2k ks) (modifiers_to_x11_mods h.mods ||| m)) := by
  constructor
  · intro hok
    have hg := grabAll_success gf (k2k ks) (modifiers_to_x11_mods h.mods) IGNORED_MODS hok
    simp only [register_hotkey, hks, hg]
    split
    · simp at *
    · split <;> rfl
  · intro hbad
    have hg := grabAll_fail gf (k2k ks) (modifiers_to_x11_mods h.mods) IGNORED_MODS hbad
    simp only [register_hotkey, hks]
    rw [if_pos hg.1]
    exact ⟨rfl, rfl, (grabAll gf (k2k ks) (modifiers_to_x11_mods h.mods) IGNORED_MODS).2,
      rfl, hg.2⟩

/-- Witness for C6: registering `hA` when the NumLock grab variant of
keycode 38 is already held elsewhere fails with `AlreadyRegistered`
and leaves the empty table empty. -/
theorem c6_grab_fanout_witness :
    keycode_to_x11_scancode hA.key = some 0x41
    ∧ (∃ m ∈ IGNORED_MODS, gfNum (k2kA 0x41) (modifiers_to_x11_mods hA.mods ||| m) = true)
    ∧ (register_hotkey k2kA gfNum (fun _ => []) hA).result = .error (.AlreadyRegistered hA) :=
  ⟨by decide, by decide,
    ((c6_grab_fanout k2kA gfNum (fun _ => []) hA 0x41 (by decide)).2 (by decide)).1⟩

/-- C7: unregistering a hotkey succeeds whenever its key has an X11
translation — never failing for "not currently registered" — and when
no entry with the hotkey's (keycode, mask) pair exists, the table is
completely unchanged; `FailedToUnRegister` arises exactly when the key
has no translation, and then too the table is unchanged (and no X call
is made). -/
theorem c7_unregister_unregistered (k2k : Nat → Nat) (tbl : Table) (h : HotKey) :
    (keycode_to_x11_scancode h.key = none →
      unregister_hotkey k2k tbl h
        = { result := .error (.FailedToUnRegister h), table := tbl, calls := [] })
    ∧ (∀ ks, keycode_to_x11_scancode h.key = some ks →
      (unregister_hotkey k2k tbl h).result = .ok ()
      ∧ ((∀ e ∈ tbl (k2k ks), e.2.1 ≠ modifiers_to_x11_mods h.mods) →
        (unregister_hotkey k2k tbl h).table = tbl)) := by
  constructor
  · intro hnone
    simp only [unregister_hotkey, hnone]
  · intro ks hks
    refine ⟨by simp only [unregister_hotkey, hks], ?_⟩
    intro hno
    simp only [unregister_hotkey, hks]
    funext sc
    by_cases hsc : sc = k2k ks
    · simp only [hsc, eq_self_iff_true, if_true]
      apply List.filter_eq_self.mpr
      intro e he
      exact bne_iff_ne.mpr (hno e he)
    · simp only [if_neg hsc]

/-- Witness for C7: unregistering the never-registered `hB` from the
table holding only `hA` succeeds and leaves the table unchanged, while
the untranslatable `hF13` fails with `FailedToUnRegister`. -/
theorem c7_unregister_unregistered_witness :
    keycode_to_x11_scancode hB.key = some 0x42
    ∧ (unregister_hotkey k2kA tblA hB).result = .ok ()
    ∧ keycode_to_x11_scancode hF13.key = none
    ∧ (unregister_hotkey k2kA tblA hF13).result = .error (.FailedToUnRegister hF13) :=
  ⟨by decide,
    ((c7_unregister_unregistered k2kA tblA hB).2 0x42 (by decide)).1,
    by decide,
    by rw [(c7_unregister_unregistered k2kA tblA hF13).1 (by decide)]⟩

/-- The canonical hash string only reads the shift/control/alt/super
fields of the modifier set. -/
theorem hashText_fields (a b : Modifiers) (k : Code)
    (h1 : a.shift = b.shift) (h2 : a.control = b.control)
    (h3 : a.alt = b.alt) (h4 : a.super = b.super) :
    hashText a k = hashText b k := by
  simp only [hashText, h1, h2, h3, h4]

/-- C9 (amended): the id of a constructed hotkey depends only on the
key and on the effective SHIFT, CONTROL, ALT and SUPER-or-META
modifier bits; hotkeys built from equal (modifiers, key) pairs share an
id, and hotkeys whose pairs differ only in other modifier bits (such as
ALT_GRAPH) also share an id, so distinct pairs do not guarantee
distinct ids. -/
theorem c9_id_effective_bits (m m' : Modifiers) (k : Code)
    (hs : m.shift = m'.shift) (hc : m.control = m'.control)
    (ha : m.alt = m'.alt) (hm : (m.super || m.meta) = (m'.super || m'.meta)) :
    (HotKey.new (some m) k).id = (HotKey.new (some m') k).id := by
  have hstr : hashText (if m.meta then { m with meta := false, super := true } else m) k
      = hashText (if m'.meta then { m' with meta := false, super := true } else m') k := by
    cases hm1 : m.meta <;> cases hm2 : m'.meta <;>
      · rw [hm1] at hm
        rw [hm2] at hm
        simp only [Bool.or_false, Bool.or_true] at hm
        apply hashText_fields <;> simp_all
  show hotkeyHash _ k = hotkeyHash _ k
  unfold hotkeyHash
  simp only [Option.getD_some]
  rw [hstr]

/-- Witness for C9: the modifier sets `{ALT_GRAPH}` and `{}` agree on
the four effective bits, so `ALT_GRAPH+KeyA` and bare `KeyA` share an
id. -/
theorem c9_id_effective_bits_witness :
    ({ altGraph := true } : Modifiers).shift = Modifiers.empty.shift
    ∧ (HotKey.new (some { altGraph := true }) .KeyA).id
        = (HotKey.new (some Modifiers.empty) .KeyA).id :=
  ⟨by decide,
    c9_id_effective_bits { altGraph := true } Modifiers.empty .KeyA
      (by decide) (by decide) (by decide) (by decide)⟩

/-- Counterexample for C9: `HotKey::new(ALT_GRAPH, KeyA)` and
`HotKey::new(None, KeyA)` are distinct hotkeys built from distinct
(modifiers, key) pairs, yet their ids are equal, because the hash reads
only the SHIFT/CONTROL/ALT/SUPER bits. -/
theorem c9_counterexample :
    ((HotKey.new (some { altGraph := true }) .KeyA).mods,
        (HotKey.new (some { altGraph := true }) .KeyA).key)
      ≠ ((HotKey.new none .KeyA).mods, (HotKey.new none .KeyA).key)
    ∧ HotKey.new (some { altGraph := true }) .KeyA ≠ HotKey.new none .KeyA
    ∧ (HotKey.new (some { altGraph := true }) .KeyA).id = (HotKey.new none .KeyA).id :=
  ⟨by decide, by decide, by decide⟩
